import Mathlib

/-!
# Verification of the webhook-inbox delivery core

A shallow embedding, in Lean 4, of the parts of `marcelsud/webhook-inbox`
that the verified claims are about:

* `base64` — model of Go's `encoding/base64` `StdEncoding` (external
  library used by `signature.ParseSecret`, `Sign` and `Verify`): standard
  alphabet, mandatory padding, `\r`/`\n` ignored, lenient about non-zero
  trailing bits in the final quantum.
* `webhook` — `DeliveryMode` and `Status` (delivery_mode.go, status.go).
* `signature` — `ParseSecret`, `Sign`, `Verify` (signature package).
  HMAC-SHA256 itself is Go standard-library code, so it is kept abstract:
  every definition that signs takes the MAC as an explicit function
  argument `mac : List Nat → List Nat → List Nat` (key, message ↦ digest).
* `payload` — `StandardPayload.Validate`, `MatchesEventType`,
  `ValidateEventType` (payload.go).
* `routes` — `Route.Validate` and the `Loader.Load` conversion from the
  YAML route entries (route.go, loader.go).
* `redisrepo` — a state-passing model of the Redis repository
  (`Store`, `Get`, `Consume`, `Acknowledge`, `UpdateStatus`,
  `IncrementRetry`, `DeleteMessageID`) over an explicit `RedisState`
  holding hashes, string keys, streams and consumer groups.
* `handler` — the intake handler `postWebhook` composed with
  `Service.Receive` (webhooks.go, service.go), parametric in the JSON
  unmarshalling step (Go `encoding/json`, external).

Go strings are byte strings; where the byte structure matters they are
modelled as `List Nat` (each element a byte value), where only equality
and prefix checks matter they are modelled as `List Char` or `String`.
-/

deriving instance DecidableEq for Except

namespace WebhookInbox

namespace base64

/-- The RFC 4648 standard base64 alphabet used by Go `StdEncoding`. -/
def alphabet : List Char :=
  ['A', 'B', 'C', 'D', 'E', 'F', 'G', 'H', 'I', 'J', 'K', 'L', 'M',
   'N', 'O', 'P', 'Q', 'R', 'S', 'T', 'U', 'V', 'W', 'X', 'Y', 'Z',
   'a', 'b', 'c', 'd', 'e', 'f', 'g', 'h', 'i', 'j', 'k', 'l', 'm',
   'n', 'o', 'p', 'q', 'r', 's', 't', 'u', 'v', 'w', 'x', 'y', 'z',
   '0', '1', '2', '3', '4', '5', '6', '7', '8', '9', '+', '/']

/-- Character for a 6-bit value (the fallback is never reached on byte
input, any in-alphabet default keeps lemmas uniform). -/
def encChar (i : Nat) : Char := alphabet.getD i 'A'

/-- Position of a character in the alphabet; `none` for characters
outside it (Go reports `CorruptInputError` there). -/
def findIdx (c : Char) : List Char → Option Nat
  | [] => none
  | a :: rest => if a = c then some 0 else (findIdx c rest).map (· + 1)

def decVal (c : Char) : Option Nat := findIdx c alphabet

/-- `EncodeToString`: 3-byte groups to 4 characters, padding the final
partial group with `=`. -/
def encodeGroups : List Nat → List Char
  | [] => []
  | [b1] => [encChar (b1 / 4), encChar (b1 % 4 * 16), '=', '=']
  | [b1, b2] =>
      [encChar (b1 / 4), encChar (b1 % 4 * 16 + b2 / 16), encChar (b2 % 16 * 4), '=']
  | b1 :: b2 :: b3 :: rest =>
      encChar (b1 / 4) :: encChar (b1 % 4 * 16 + b2 / 16) ::
      encChar (b2 % 16 * 4 + b3 / 64) :: encChar (b3 % 64) :: encodeGroups rest

def encode (bs : List Nat) : List Char := encodeGroups bs

/-- Decode 4-character quantums. Padding may appear only in the final
quantum, in the two shapes Go accepts; anything else is an error. -/
def decodeGroups : List Char → Option (List Nat)
  | [] => some []
  | a :: b :: c :: d :: rest =>
      if c = '=' then
        if d = '=' ∧ rest = [] then
          match decVal a, decVal b with
          | some va, some vb => some [va * 4 + vb / 16]
          | _, _ => none
        else none
      else if d = '=' then
        if rest = [] then
          match decVal a, decVal b, decVal c with
          | some va, some vb, some vc => some [va * 4 + vb / 16, vb % 16 * 16 + vc / 4]
          | _, _, _ => none
        else none
      else
        match decVal a, decVal b, decVal c, decVal d, decodeGroups rest with
        | some va, some vb, some vc, some vd, some tail =>
            some ((va * 4 + vb / 16) :: (vb % 16 * 16 + vc / 4) :: (vc % 4 * 64 + vd) :: tail)
        | _, _, _, _, _ => none
  | _ => none

/-- `DecodeString`: Go's decoder drops carriage returns and newlines
before grouping. -/
def decode (s : List Char) : Option (List Nat) :=
  decodeGroups (s.filter (fun c => c != '\r' && c != '\n'))

theorem decVal_encChar : ∀ i < 64, decVal (encChar i) = some i := by decide

theorem encChar_ne_pad : ∀ i < 64, encChar i ≠ '=' := by decide

theorem encChar_keep : ∀ i < 64, (encChar i != '\r' && encChar i != '\n') = true := by
  decide

theorem filter_encodeGroups (bs : List Nat) (h : ∀ b ∈ bs, b < 256) :
    (encodeGroups bs).filter (fun c => c != '\r' && c != '\n') = encodeGroups bs := by
  induction bs using encodeGroups.induct with
  | case1 => simp [encodeGroups]
  | case2 b1 =>
      have hb1 : b1 < 256 := h b1 (by simp)
      simp [encodeGroups, List.filter, encChar_keep _ (by omega : b1 / 4 < 64),
        encChar_keep _ (by omega : b1 % 4 * 16 < 64)]
  | case3 b1 b2 =>
      have hb1 : b1 < 256 := h b1 (by simp)
      have hb2 : b2 < 256 := h b2 (by simp)
      simp [encodeGroups, List.filter, encChar_keep _ (by omega : b1 / 4 < 64),
        encChar_keep _ (by omega : b1 % 4 * 16 + b2 / 16 < 64),
        encChar_keep _ (by omega : b2 % 16 * 4 < 64)]
  | case4 b1 b2 b3 rest ih =>
      have hb1 : b1 < 256 := h b1 (by simp)
      have hb2 : b2 < 256 := h b2 (by simp)
      have hb3 : b3 < 256 := h b3 (by simp)
      have hrest : ∀ b ∈ rest, b < 256 := fun b hb => h b (by simp [hb])
      simp only [encodeGroups, List.filter,
        encChar_keep _ (by omega : b1 / 4 < 64),
        encChar_keep _ (by omega : b1 % 4 * 16 + b2 / 16 < 64),
        encChar_keep _ (by omega : b2 % 16 * 4 + b3 / 64 < 64),
        encChar_keep _ (by omega : b3 % 64 < 64)]
      simpa using ih hrest

/-- Round trip through Go base64: decoding an encoding recovers the
bytes, for genuine byte input. -/
theorem decode_encode (bs : List Nat) (h : ∀ b ∈ bs, b < 256) :
    decode (encode bs) = some bs := by
  unfold decode encode
  rw [filter_encodeGroups bs h]
  induction bs using encodeGroups.induct with
  | case1 => simp [encodeGroups, decodeGroups]
  | case2 b1 =>
      have hb1 : b1 < 256 := h b1 (by simp)
      have h1 : b1 / 4 < 64 := by omega
      have h2 : b1 % 4 * 16 < 64 := by omega
      simp only [encodeGroups, decodeGroups, and_self, if_true]
      rw [decVal_encChar _ h1, decVal_encChar _ h2]
      simp only [Option.some.injEq, List.cons.injEq, and_true]
      omega
  | case3 b1 b2 =>
      have hb1 : b1 < 256 := h b1 (by simp)
      have hb2 : b2 < 256 := h b2 (by simp)
      have h1 : b1 / 4 < 64 := by omega
      have h2 : b1 % 4 * 16 + b2 / 16 < 64 := by omega
      have h3 : b2 % 16 * 4 < 64 := by omega
      simp only [encodeGroups, decodeGroups, if_true]
      rw [if_neg (encChar_ne_pad _ h3)]
      rw [decVal_encChar _ h1, decVal_encChar _ h2, decVal_encChar _ h3]
      simp only [Option.some.injEq, List.cons.injEq, and_true]
      constructor <;> omega
  | case4 b1 b2 b3 rest ih =>
      have hb1 : b1 < 256 := h b1 (by simp)
      have hb2 : b2 < 256 := h b2 (by simp)
      have hb3 : b3 < 256 := h b3 (by simp)
      have hrest : ∀ b ∈ rest, b < 256 := fun b hb => h b (by simp [hb])
      have h1 : b1 / 4 < 64 := by omega
      have h2 : b1 % 4 * 16 + b2 / 16 < 64 := by omega
      have h3 : b2 % 16 * 4 + b3 / 64 < 64 := by omega
      have h4 : b3 % 64 < 64 := by omega
      simp only [encodeGroups, decodeGroups]
      rw [if_neg (encChar_ne_pad _ h3), if_neg (encChar_ne_pad _ h4)]
      rw [decVal_encChar _ h1, decVal_encChar _ h2, decVal_encChar _ h3,
        decVal_encChar _ h4, ih hrest]
      simp only [Option.some.injEq, List.cons.injEq]
      refine ⟨by omega, by omega, by omega, trivial⟩

end base64

namespace webhook

/-- Go `DeliveryMode` is an `int` (delivery_mode.go). -/
abbrev DeliveryMode := Int

def FIFO : DeliveryMode := 1

def PubSub : DeliveryMode := 2

/-- `NewDeliveryMode` (delivery_mode.go:29): unrecognised strings fall
back to FIFO. -/
def NewDeliveryMode (s : String) : DeliveryMode :=
  if s = "fifo" then FIFO else if s = "pubsub" then PubSub else FIFO

/-- `DeliveryMode.String` (delivery_mode.go:17). -/
def DeliveryMode.toStr (d : DeliveryMode) : String :=
  if d = FIFO then "fifo" else if d = PubSub then "pubsub" else "unknown"

/-- `DeliveryMode.Validate` (delivery_mode.go:41). -/
def DeliveryMode.Validate (d : DeliveryMode) : Except String Unit :=
  if d ≠ FIFO ∧ d ≠ PubSub then .error "invalid delivery mode" else .ok ()

/-- Go `Status` is an `int` (status.go). -/
abbrev Status := Int

def Pending : Status := 1

def Delivering : Status := 2

def Delivered : Status := 3

def Failed : Status := 4

def Retrying : Status := 5

/-- `Status.String` (status.go). -/
def Status.toStr (s : Status) : String :=
  if s = Pending then "pending"
  else if s = Delivering then "delivering"
  else if s = Delivered then "delivered"
  else if s = Failed then "failed"
  else if s = Retrying then "retrying"
  else "unknown"

/-- `NewStatus` (status.go): unrecognised strings fall back to Pending. -/
def NewStatus (s : String) : Status :=
  if s = "pending" then Pending
  else if s = "delivering" then Delivering
  else if s = "delivered" then Delivered
  else if s = "failed" then Failed
  else if s = "retrying" then Retrying
  else Pending

/-- `Status.Validate` (status.go). -/
def Status.Validate (s : Status) : Except String Unit :=
  if s < Pending ∨ s > Retrying then .error "invalid status" else .ok ()

/-- `Status.IsFinal` (status.go). -/
def Status.IsFinal (s : Status) : Bool :=
  s == Delivered || s == Failed

/-- The `Webhook` domain entity (webhook.go). Timestamps are Unix
seconds. -/
structure Webhook where
  id : String
  routeID : String
  payload : List Char
  headers : List (String × String)
  status : Status
  retryCount : Int
  maxRetries : Int
  nextRetryAt : Int
  deliveryMode : DeliveryMode
  createdAt : Int
  updatedAt : Int
deriving DecidableEq

end webhook

namespace signature

/-- `SecretPrefix = "whsec_"` (signature.go). -/
def secretMarker : List Char := ['w', 'h', 's', 'e', 'c', '_']

/-- A parsed Standard Webhooks secret: raw bytes plus the original
encoded form. -/
structure Secret where
  raw : List Nat
  b64 : List Char
deriving DecidableEq

/-- `ParseSecret` (signature.go:54): require the `whsec_` marker, base64
decode the remainder, require 24–64 raw bytes. -/
def ParseSecret (encoded : List Char) : Except String Secret :=
  if encoded.take 6 = secretMarker then
    match base64.decode (encoded.drop 6) with
    | none => .error "decoding base64 secret"
    | some raw =>
        if raw.length < 24 ∨ raw.length > 64 then
          .error "secret size must be between 24 and 64 bytes"
        else .ok ⟨raw, encoded⟩
  else .error "secret must start with whsec_"

/-- A version tag plus base64 signature value (signature.go:86). -/
structure Signature where
  version : List Char
  value : List Char
deriving DecidableEq

/-- `Signature.String` (signature.go:92): `version,value`. -/
def Signature.render (s : Signature) : List Char :=
  s.version ++ ',' :: s.value

/-- Decimal byte rendering of `strconv.FormatInt(i, 10)`. -/
def intDecBytes (i : Int) : List Nat :=
  if i < 0 then 45 :: (Nat.toDigits 10 i.natAbs).map Char.toNat
  else (Nat.toDigits 10 i.toNat).map Char.toNat

/-- The signed content `msgID + "." + unixSeconds + "." + payload`
(signature.go:117), as bytes; 46 is the dot. -/
def signedContent (msgID : List Nat) (ts : Int) (payload : List Nat) : List Nat :=
  msgID ++ 46 :: intDecBytes ts ++ 46 :: payload

/-- `Sign` (signature.go:111). `mac key msg` stands for the Go-library
HMAC-SHA256 digest. -/
def Sign (mac : List Nat → List Nat → List Nat) (secret : Secret)
    (msgID : List Nat) (ts : Int) (payload : List Nat) : Except String Signature :=
  if 46 ∈ msgID then .error "message ID must not contain a dot"
  else .ok ⟨['v', '1'], base64.encode (mac secret.raw (signedContent msgID ts payload))⟩

/-- `subtle.ConstantTimeCompare`: 1 exactly when the byte slices are
equal (also in length). -/
def constantTimeCompare (x y : List Nat) : Nat := if x = y then 1 else 0

/-- `Verify` (signature.go:134). -/
def Verify (mac : List Nat → List Nat → List Nat) (secret : Secret)
    (msgID : List Nat) (ts : Int) (payload : List Nat) (expectedSig : Signature) :
    Except String Bool :=
  if expectedSig.version ≠ ['v', '1'] then .error "unsupported signature version"
  else
    match Sign mac secret msgID ts payload with
    | .error _ => .error "calculating signature"
    | .ok calcSig =>
        match base64.decode expectedSig.value with
        | none => .error "decoding expected signature"
        | some expected =>
            match base64.decode calcSig.value with
            | none => .error "decoding calculated signature"
            | some calculated => .ok (constantTimeCompare expected calculated == 1)

end signature

namespace payload

/-- One character class of `^[a-zA-Z0-9_]+(\.[a-zA-Z0-9_]+)*$`. -/
def isWordChar (c : Char) : Bool := c.isAlphanum || c = '_'

/-- `eventTypePattern.MatchString` (payload.go:11): dot-separated
nonempty groups of word characters. -/
def matchesTypePattern (s : List Char) : Bool :=
  (s.splitOn '.').all (fun part => !part.isEmpty && part.all isWordChar)

/-- The Standard Webhooks envelope (payload.go:14). `timestamp` models
`time.Time`; `0` is the zero time. `data` is the raw JSON. -/
structure StandardPayload where
  type : List Char
  timestamp : Int
  data : List Char
deriving DecidableEq

/-- `StandardPayload.Validate` (payload.go:27). `jsonValid` stands for
the Go-library `json.Valid`. -/
def Validate (jsonValid : List Char → Bool) (p : StandardPayload) : Except String Unit :=
  if p.type = [] then .error "type is required"
  else if !matchesTypePattern p.type then .error "type must be hierarchical"
  else if p.timestamp = 0 then .error "timestamp is required"
  else if p.data = [] then .error "data is required"
  else if !jsonValid p.data then .error "data must be valid JSON"
  else .ok ()

/-- The body of the `MatchesEventType` loop (payload.go:141–153): exact
match, or a `.*`-suffixed pattern of more than two bytes whose stem is
followed by a dot in the type. -/
def matchOne (t et : List Char) : Bool :=
  t == et ||
  (decide (et.length > 2) && (et.drop (et.length - 2) == ['.', '*']) &&
    (decide (t.length > (et.length - 2)) &&
      (t.take (et.length - 2) == et.take (et.length - 2)) &&
      (t.getD (et.length - 2) ' ' == '.')))

/-- `MatchesEventType` (payload.go:135): empty filter accepts all;
otherwise some pattern must match. -/
def MatchesEventType (t : List Char) (eventTypes : List (List Char)) : Bool :=
  if eventTypes.isEmpty then true
  else eventTypes.any (matchOne t)

/-- `ValidateEventType` (payload.go:160): optionally strip a `.*`
suffix, then check the hierarchical pattern. -/
def ValidateEventType (eventType : List Char) : Except String Unit :=
  if eventType = [] then .error "event type cannot be empty"
  else
    let et := if eventType.length > 2 && eventType.drop (eventType.length - 2) == ['.', '*']
      then eventType.take (eventType.length - 2) else eventType
    if !matchesTypePattern et then .error "event type must be hierarchical"
    else .ok ()

end payload

/-! Small association-list maps with string keys, used to model both the
in-memory route registry (a Go map) and the Redis keyspace. -/

def alookup {α : Type} : List (String × α) → String → Option α
  | [], _ => none
  | (k, v) :: rest, key => if k = key then some v else alookup rest key

def aset {α : Type} : List (String × α) → String → α → List (String × α)
  | [], key, v => [(key, v)]
  | (k, w) :: rest, key, v =>
      if k = key then (k, v) :: rest else (k, w) :: aset rest key v

def adel {α : Type} : List (String × α) → String → List (String × α)
  | [], _ => []
  | (k, w) :: rest, key =>
      if k = key then adel rest key else (k, w) :: adel rest key

namespace routes

/-- `Route` (route.go:17). -/
structure Route where
  routeID : String
  targetURL : String
  mode : webhook.DeliveryMode
  maxRetries : Int
  retryBackoff : String
  parallelism : Int
  expectedStatus : Int
  deliveredTTLHours : Option Int
  failedTTLHours : Option Int
  signingSecret : List Char
  eventTypes : List (List Char)
deriving DecidableEq

/-- Negative-TTL test used by `Route.Validate`. -/
def negTTL : Option Int → Bool
  | some h => h < 0
  | none => false

/-- The event-type loop at the end of `Route.Validate` (route.go:74). -/
def validateEventTypes : List (List Char) → Except String Unit
  | [] => .ok ()
  | et :: rest =>
      match payload.ValidateEventType et with
      | .error e => .error e
      | .ok _ => validateEventTypes rest

/-- `Route.Validate` (route.go:32). -/
def Route.Validate (r : Route) : Except String Unit :=
  if r.routeID = "" then .error "route_id cannot be empty"
  else if r.targetURL = "" then .error "target_url cannot be empty"
  else match webhook.DeliveryMode.Validate r.mode with
  | .error _ => .error "invalid mode"
  | .ok _ =>
    if r.maxRetries < 0 then .error "max_retries cannot be negative"
    else if r.parallelism < 1 then .error "parallelism must be at least 1"
    else if r.mode = webhook.FIFO ∧ r.parallelism > 1 then
      .error "FIFO mode requires parallelism equal to 1"
    else if r.expectedStatus ≠ 200 ∧ r.expectedStatus ≠ 201 ∧ r.expectedStatus ≠ 202 then
      .error "expected_status must be 200, 201, or 202"
    else if negTTL r.deliveredTTLHours then .error "delivered_ttl_hours cannot be negative"
    else if negTTL r.failedTTLHours then .error "failed_ttl_hours cannot be negative"
    else if r.signingSecret ≠ [] then
      if r.signingSecret.take 6 ≠ signature.secretMarker then
        .error "signing_secret must start with whsec_"
      else match signature.ParseSecret r.signingSecret with
        | .error _ => .error "invalid signing_secret"
        | .ok _ => validateEventTypes r.eventTypes
    else validateEventTypes r.eventTypes

/-- `RouteConfig` (route.go:127): the yaml-tagged struct. It has NO
fields for `signing_secret` or `event_types`. -/
structure RouteConfig where
  routeID : String
  targetURL : String
  mode : String
  maxRetries : Int
  retryBackoff : String
  parallelism : Int
  expectedStatus : Int
  deliveredTTLHours : Option Int
  failedTTLHours : Option Int
deriving DecidableEq

/-- A route entry as written in routes.yaml: the `RouteConfig` keys plus
the optional `signing_secret` and `event_types` keys the spec names.
Absent scalar keys are already the Go zero values. -/
structure RouteEntry where
  routeID : String
  targetURL : String
  mode : String
  maxRetries : Int
  retryBackoff : String
  parallelism : Int
  expectedStatus : Int
  deliveredTTLHours : Option Int
  failedTTLHours : Option Int
  signingSecret : Option (List Char)
  eventTypes : Option (List (List Char))
deriving DecidableEq

/-- `yaml.Unmarshal` into `RouteConfig`: binds the tagged keys and
silently drops keys without a struct field — in particular
`signing_secret` and `event_types`. -/
def decodeEntry (e : RouteEntry) : RouteConfig :=
  { routeID := e.routeID
    targetURL := e.targetURL
    mode := e.mode
    maxRetries := e.maxRetries
    retryBackoff := e.retryBackoff
    parallelism := e.parallelism
    expectedStatus := e.expectedStatus
    deliveredTTLHours := e.deliveredTTLHours
    failedTTLHours := e.failedTTLHours }

/-- The conversion step inside `Loader.Load` (route.go:164): default the
expected status to 202 when the key was omitted (0), build the `Route`.
`SigningSecret` and `EventTypes` are never assigned, so they keep the Go
zero values. -/
def convertRoute (rc : RouteConfig) : Route :=
  { routeID := rc.routeID
    targetURL := rc.targetURL
    mode := webhook.NewDeliveryMode rc.mode
    maxRetries := rc.maxRetries
    retryBackoff := rc.retryBackoff
    parallelism := rc.parallelism
    expectedStatus := if rc.expectedStatus = 0 then 202 else rc.expectedStatus
    deliveredTTLHours := rc.deliveredTTLHours
    failedTTLHours := rc.failedTTLHours
    signingSecret := []
    eventTypes := [] }

/-- One iteration of the `Load` loop: decode, convert, validate. -/
def loadEntry (e : RouteEntry) : Except String Route :=
  let route := convertRoute (decodeEntry e)
  match route.Validate with
  | .error err => .error err
  | .ok _ => .ok route

/-- `Loader.Load` over an already-parsed routes.yaml: validate each
entry in order and populate the registry map (entries here have distinct
ids, for which the association list agrees with the Go map). -/
def Load : List RouteEntry → Except String (List (String × Route))
  | [] => .ok []
  | e :: rest =>
      match loadEntry e with
      | .error err => .error err
      | .ok route =>
          match Load rest with
          | .error err => .error err
          | .ok m => .ok ((route.routeID, route) :: m)

end routes

namespace redisrepo

/-- The fields of the Redis hash `webhook:{id}` written by `Store`
(repository.go). Status and mode are stored as their string renderings;
the headers JSON marshalling is kept as the map itself. -/
structure EventHash where
  id : String
  routeID : String
  payload : List Char
  headers : List (String × String)
  status : String
  retryCount : Int
  maxRetries : Int
  deliveryMode : String
  createdAt : Int
  updatedAt : Int
deriving DecidableEq

/-- A stream entry; `eventID = none` models a missing or non-string
`event_id` value (the `.(string)` assertion failing in `Consume`). -/
structure StreamMsg where
  msgID : String
  eventID : Option String
deriving DecidableEq

/-- Consumer-group state: the position of the next `>` delivery and the
pending entries list (delivered, not yet acknowledged). -/
structure GroupState where
  readPos : Nat
  pel : List String
deriving DecidableEq

/-- The slice of the Redis keyspace the repository touches. -/
structure RedisState where
  hashes : List (String × EventHash)
  strs : List (String × String)
  streams : List (String × List StreamMsg)
  groups : List (String × GroupState)
  ttls : List (String × Int)
  nextID : Nat
deriving DecidableEq

def hashKey (id : String) : String := "webhook:" ++ id

def msgIDKey (id : String) : String := "webhook:" ++ id ++ ":msgid"

def streamKey (routeID : String) (mode : webhook.DeliveryMode) : String :=
  "webhooks:" ++ mode.toStr ++ ":" ++ routeID

/-- Consumer groups are keyed by stream plus group name
(`webhook-workers-{routeID}`). -/
def groupKey (routeID : String) (mode : webhook.DeliveryMode) : String :=
  streamKey routeID mode ++ "|webhook-workers-" ++ routeID

/-- `XGroupCreateMkStream(..., "0")`: create the group (and the stream)
when absent, ignore when present. -/
def ensureGroup (s : RedisState) (routeID : String) (mode : webhook.DeliveryMode) :
    RedisState :=
  match alookup s.groups (groupKey routeID mode) with
  | some _ => s
  | none =>
      { s with
        groups := aset s.groups (groupKey routeID mode) ⟨0, []⟩
        streams :=
          match alookup s.streams (streamKey routeID mode) with
          | some _ => s.streams
          | none => aset s.streams (streamKey routeID mode) [] }

def hashOf (wh : webhook.Webhook) : EventHash :=
  { id := wh.id
    routeID := wh.routeID
    payload := wh.payload
    headers := wh.headers
    status := wh.status.toStr
    retryCount := wh.retryCount
    maxRetries := wh.maxRetries
    deliveryMode := wh.deliveryMode.toStr
    createdAt := wh.createdAt
    updatedAt := wh.updatedAt }

/-- The `HSET` of all event fields at the start of `Store`. -/
def storeHash (s : RedisState) (wh : webhook.Webhook) : RedisState :=
  { s with hashes := aset s.hashes (hashKey wh.id) (hashOf wh) }

/-- The `XADD` at the end of `Store`; stream ids are drawn from a
counter. -/
def storeStream (s2 : RedisState) (wh : webhook.Webhook) : RedisState :=
  { s2 with
    streams := aset s2.streams (streamKey wh.routeID wh.deliveryMode)
      (((alookup s2.streams (streamKey wh.routeID wh.deliveryMode)).getD []) ++
        [⟨"m" ++ toString s2.nextID, some wh.id⟩])
    nextID := s2.nextID + 1 }

/-- `Store` (repository.go:735): write the hash, ensure the group,
append the stream entry. -/
def Store (s : RedisState) (wh : webhook.Webhook) : RedisState × Except String String :=
  (storeStream (ensureGroup (storeHash s wh) wh.routeID wh.deliveryMode) wh, .ok wh.id)

/-- `Get` (repository.go:788): read the hash, rebuild the `Webhook`
through `NewStatus`/`NewDeliveryMode`. -/
def Get (s : RedisState) (id : String) : Except String webhook.Webhook :=
  match alookup s.hashes (hashKey id) with
  | none => .error "webhook not found"
  | some h =>
      .ok
        { id := h.id
          routeID := h.routeID
          payload := h.payload
          headers := h.headers
          status := webhook.NewStatus h.status
          retryCount := h.retryCount
          maxRetries := h.maxRetries
          nextRetryAt := 0
          deliveryMode := webhook.NewDeliveryMode h.deliveryMode
          createdAt := h.createdAt
          updatedAt := h.updatedAt }

/-- The hash an `HSET` creates when the key is absent: only the written
fields, everything else the Go zero value. -/
def emptyHash : EventHash :=
  { id := "", routeID := "", payload := [], headers := [], status := ""
    retryCount := 0, maxRetries := 0, deliveryMode := "", createdAt := 0, updatedAt := 0 }

/-- `UpdateStatus` (repository.go:835): blind `HSET` of `status` and
`updated_at`; creates the hash when missing. -/
def UpdateStatus (s : RedisState) (now : Int) (id : String) (st : webhook.Status) :
    RedisState :=
  { s with
    hashes := aset s.hashes (hashKey id)
      { (alookup s.hashes (hashKey id)).getD emptyHash with
          status := st.toStr, updatedAt := now } }

/-- `IncrementRetry` (repository.go:850): `HINCRBY retry_count 1` then
`HSET updated_at`. -/
def IncrementRetry (s : RedisState) (now : Int) (id : String) : RedisState :=
  { s with
    hashes := aset s.hashes (hashKey id)
      { (alookup s.hashes (hashKey id)).getD emptyHash with
          retryCount := ((alookup s.hashes (hashKey id)).getD emptyHash).retryCount + 1,
          updatedAt := now } }

/-- The group state the `XREADGROUP` consults. -/
def claimedGroup (s : RedisState) (routeID : String) (mode : webhook.DeliveryMode) :
    GroupState :=
  (alookup s.groups (groupKey routeID mode)).getD ⟨0, []⟩

/-- The stream the `XREADGROUP` reads. -/
def streamOf (s : RedisState) (routeID : String) (mode : webhook.DeliveryMode) :
    List StreamMsg :=
  (alookup s.streams (streamKey routeID mode)).getD []

/-- Claiming one delivered entry: advance the read position, append the
entry to the pending list. -/
def claimMsg (s : RedisState) (routeID : String) (mode : webhook.DeliveryMode)
    (msg : StreamMsg) : RedisState :=
  { s with
    groups := aset s.groups (groupKey routeID mode)
      ⟨(claimedGroup s routeID mode).readPos + 1,
        (claimedGroup s routeID mode).pel ++ [msg.msgID]⟩ }

/-- The body of the `Consume` message loop: skip entries whose
`event_id` is missing or whose hash is gone (nothing written, no ack),
otherwise record the `msgid` key (24 h TTL) and return the webhook. -/
def handleMsg (s2 : RedisState) (msg : StreamMsg) :
    RedisState × List webhook.Webhook :=
  match msg.eventID with
  | none => (s2, [])
  | some eid =>
      match Get s2 eid with
      | .error _ => (s2, [])
      | .ok wh =>
          ({ s2 with
              strs := aset s2.strs (msgIDKey eid) msg.msgID
              ttls := aset s2.ttls (msgIDKey eid) 86400 }, [wh])

/-- `Consume` after the group exists: deliver at most one never-yet
delivered entry. -/
def consumeFrom (s1 : RedisState) (routeID : String) (mode : webhook.DeliveryMode) :
    RedisState × List webhook.Webhook :=
  match (streamOf s1 routeID mode).drop (claimedGroup s1 routeID mode).readPos with
  | [] => (s1, [])
  | msg :: _ => handleMsg (claimMsg s1 routeID mode msg) msg

/-- `Consume` (repository.go:867). -/
def Consume (s : RedisState) (routeID : String) (mode : webhook.DeliveryMode) :
    RedisState × List webhook.Webhook :=
  consumeFrom (ensureGroup s routeID mode) routeID mode

/-- `XACK`: drop the entry from the pending list (a missing group acks
nothing). -/
def xack (s : RedisState) (routeID : String) (mode : webhook.DeliveryMode)
    (msgID : String) : RedisState :=
  match alookup s.groups (groupKey routeID mode) with
  | none => s
  | some g =>
      { s with
        groups := aset s.groups (groupKey routeID mode)
          ⟨g.readPos, g.pel.filter (· != msgID)⟩ }

/-- `Acknowledge` (repository.go:920): look up the `msgid` key — absent
means done, return success with nothing changed; otherwise `XACK` the
entry and delete the key. -/
def Acknowledge (s : RedisState) (routeID : String) (mode : webhook.DeliveryMode)
    (eventID : String) : RedisState × Except String Unit :=
  match alookup s.strs (msgIDKey eventID) with
  | none => (s, .ok ())
  | some msgID =>
      ({ xack s routeID mode msgID with
          strs := adel (xack s routeID mode msgID).strs (msgIDKey eventID)
          ttls := adel (xack s routeID mode msgID).ttls (msgIDKey eventID) },
       .ok ())

/-- `SetTTL` (repository.go:948): `EXPIRE` on the event hash. -/
def SetTTL (s : RedisState) (id : String) (ttl : Int) : RedisState :=
  { s with ttls := aset s.ttls (hashKey id) ttl }

/-- `DeleteMessageID` (repository.go:960): `DEL` of the `msgid` key. -/
def DeleteMessageID (s : RedisState) (id : String) : RedisState :=
  { s with strs := adel s.strs (msgIDKey id), ttls := adel s.ttls (msgIDKey id) }

end redisrepo

namespace payload

/-- `Parse` (payload.go:114): JSON unmarshal (Go `encoding/json` plus
the RFC3339 timestamp parse, abstracted as `unmarshal`), then
`Validate`. -/
def Parse (unmarshal : List Char → Except String StandardPayload)
    (jsonValid : List Char → Bool) (body : List Char) : Except String StandardPayload :=
  match unmarshal body with
  | .error e => .error e
  | .ok p =>
      match Validate jsonValid p with
      | .error e => .error e
      | .ok _ => .ok p

end payload

namespace handler

/-- The observable HTTP outcome of `postWebhook`. -/
inductive HandlerResult where
  | badRequest (msg : String)
  | notFound (msg : String)
  | serverError (msg : String)
  | accepted (eventID : String) (routeID : String)
deriving DecidableEq

/-- HTTP status code of a result. -/
def HandlerResult.code : HandlerResult → Nat
  | .badRequest _ => 400
  | .notFound _ => 404
  | .serverError _ => 500
  | .accepted _ _ => 202

/-- The `Webhook` built by `Service.Receive` (service.go:39): fresh id,
`Pending`, zero retries, mode and max retries snapshotted. -/
def buildWebhook (freshID : String) (routeID : String)
    (deliveryMode : webhook.DeliveryMode) (body : List Char)
    (headers : List (String × String)) (maxRetries : Int) (now : Int) : webhook.Webhook :=
  { id := freshID
    routeID := routeID
    payload := body
    headers := headers
    status := webhook.Pending
    retryCount := 0
    maxRetries := maxRetries
    nextRetryAt := 0
    deliveryMode := deliveryMode
    createdAt := now
    updatedAt := now }

/-- `Service.Receive` (service.go:34): validate the mode, build the
webhook, store it. `store` abstracts `Repository.Store`. -/
def Receive (store : webhook.Webhook → Except String String) (freshID : String)
    (routeID : String) (deliveryMode : webhook.DeliveryMode) (body : List Char)
    (headers : List (String × String)) (maxRetries : Int) (now : Int) :
    Except String String :=
  match webhook.DeliveryMode.Validate deliveryMode with
  | .error _ => .error "validating delivery mode"
  | .ok _ =>
      match store (buildWebhook freshID routeID deliveryMode body headers maxRetries now) with
      | .error _ => .error "storing webhook"
      | .ok id => .ok id

/-- `postWebhook` (webhooks.go:43): resolve the route (404 when
unknown), parse and validate the body (400), hand off to
`Service.Receive` (500 on failure), else 202 with the ids. The request
headers are passed through already collapsed to first values, and the
body is taken as read (an I/O read error is outside the model). -/
def postWebhook (unmarshal : List Char → Except String payload.StandardPayload)
    (jsonValid : List Char → Bool) (store : webhook.Webhook → Except String String)
    (loader : List (String × routes.Route)) (routeID : String) (body : List Char)
    (headers : List (String × String)) (freshID : String) (now : Int) : HandlerResult :=
  if routeID = "" then .badRequest "route_id is required"
  else
    match alookup loader routeID with
    | none => .notFound "route not found"
    | some route =>
        match payload.Parse unmarshal jsonValid body with
        | .error _ => .badRequest "invalid payload format"
        | .ok _ =>
            match Receive store freshID routeID route.mode body headers route.maxRetries now with
            | .error e => .serverError e
            | .ok eventID => .accepted eventID routeID

end handler

/-! Association-list lemmas shared by the repository proofs. -/

theorem alookup_aset_self {α : Type} (m : List (String × α)) (k : String) (v : α) :
    alookup (aset m k v) k = some v := by
  induction m with
  | nil => simp [aset, alookup]
  | cons p rest ih =>
      by_cases h : p.1 = k
      · simp [aset, h, alookup]
      · simp [aset, h, alookup, ih]

theorem alookup_aset_ne {α : Type} (m : List (String × α)) (k k2 : String) (v : α)
    (h : k ≠ k2) : alookup (aset m k v) k2 = alookup m k2 := by
  induction m with
  | nil => simp [aset, alookup, h]
  | cons p rest ih =>
      by_cases hp : p.1 = k
      · simp [aset, hp, alookup, h]
      · simp [aset, hp, alookup, ih]

theorem alookup_adel_self {α : Type} (m : List (String × α)) (k : String) :
    alookup (adel m k) k = none := by
  induction m with
  | nil => simp [adel, alookup]
  | cons p rest ih =>
      by_cases hp : p.1 = k
      · simp [adel, hp, ih]
      · simp [adel, hp, alookup, ih]

/-! ### Claim C10 -/

/-- C10: `NewDeliveryMode` maps `"fifo"` to FIFO, `"pubsub"` to PubSub,
and every other string (empty strings and misspellings included) to
FIFO; consequently a routes.yaml entry with an unrecognised mode which
the loader accepts is loaded as a FIFO route — its mode never causes a
validation rejection. -/
theorem c10_unrecognized_mode_defaults_fifo :
    webhook.NewDeliveryMode "fifo" = webhook.FIFO ∧
    webhook.NewDeliveryMode "pubsub" = webhook.PubSub ∧
    (∀ s : String, s ≠ "fifo" → s ≠ "pubsub" →
      webhook.NewDeliveryMode s = webhook.FIFO) ∧
    (∀ s : String, webhook.DeliveryMode.Validate (webhook.NewDeliveryMode s) = .ok ()) ∧
    (∀ e : routes.RouteEntry, e.mode ≠ "fifo" → e.mode ≠ "pubsub" →
      ∀ r, routes.loadEntry e = .ok r → r.mode = webhook.FIFO) := by
  refine ⟨rfl, rfl, ?_, ?_, ?_⟩
  · intro s h1 h2
    simp [webhook.NewDeliveryMode, h1, h2]
  · intro s
    unfold webhook.NewDeliveryMode webhook.DeliveryMode.Validate
    by_cases h1 : s = "fifo"
    · simp [h1, webhook.FIFO, webhook.PubSub]
    · by_cases h2 : s = "pubsub" <;>
        simp [h1, h2, webhook.FIFO, webhook.PubSub]
  · intro e h1 h2 r hr
    unfold routes.loadEntry at hr
    rcases hload : (routes.convertRoute (routes.decodeEntry e)).Validate with e2 | u
    · simp [hload] at hr
    · simp [hload] at hr
      subst hr
      simp [routes.convertRoute, routes.decodeEntry, webhook.NewDeliveryMode, h1, h2]

/-- A yaml entry whose mode key is the unrecognised string `"bogus"`. -/
def bogusModeEntry : routes.RouteEntry :=
  { routeID := "r1", targetURL := "https://t.example", mode := "bogus",
    maxRetries := 3, retryBackoff := "1000", parallelism := 1,
    expectedStatus := 0, deliveredTTLHours := none, failedTTLHours := none,
    signingSecret := none, eventTypes := none }

/-- The route `Load` builds for `bogusModeEntry`. -/
def bogusModeRoute : routes.Route :=
  { routeID := "r1", targetURL := "https://t.example", mode := webhook.FIFO,
    maxRetries := 3, retryBackoff := "1000", parallelism := 1,
    expectedStatus := 202, deliveredTTLHours := none, failedTTLHours := none,
    signingSecret := [], eventTypes := [] }

/-- C10 witness: a concrete yaml entry with mode `"bogus"` loads
successfully and as a FIFO route. -/
theorem c10_witness :
    webhook.NewDeliveryMode "bogus" = webhook.FIFO ∧
    routes.loadEntry bogusModeEntry = .ok bogusModeRoute ∧
    bogusModeRoute.mode = webhook.FIFO := by
  have hok : routes.loadEntry bogusModeEntry = .ok bogusModeRoute := by decide
  exact ⟨c10_unrecognized_mode_defaults_fifo.2.2.1 "bogus" (by decide) (by decide),
    hok,
    c10_unrecognized_mode_defaults_fifo.2.2.2.2 bogusModeEntry (by decide) (by decide)
      bogusModeRoute hok⟩

/-! ### Claim C9 -/

/-- C9: `ParseSecret` succeeds exactly when the input starts with
`whsec_` and the rest is valid standard base64 decoding to 24–64 raw
bytes; on success the parsed raw bytes are that decoding (and the
encoded form is kept); otherwise it returns an error. -/
theorem c9_parse_secret_characterization (s : List Char) :
    ((∃ sec, signature.ParseSecret s = .ok sec) ↔
      (s.take 6 = signature.secretMarker ∧
        ∃ raw, base64.decode (s.drop 6) = some raw ∧
          24 ≤ raw.length ∧ raw.length ≤ 64)) ∧
    (∀ sec, signature.ParseSecret s = .ok sec →
      base64.decode (s.drop 6) = some sec.raw ∧
      24 ≤ sec.raw.length ∧ sec.raw.length ≤ 64 ∧ sec.b64 = s) ∧
    ((∃ e, signature.ParseSecret s = .error e) ↔
      ¬ (s.take 6 = signature.secretMarker ∧
        ∃ raw, base64.decode (s.drop 6) = some raw ∧
          24 ≤ raw.length ∧ raw.length ≤ 64)) := by
  by_cases h1 : s.take 6 = signature.secretMarker
  · cases hdec : base64.decode (s.drop 6) with
    | none =>
        have hps : signature.ParseSecret s = .error "decoding base64 secret" := by
          unfold signature.ParseSecret
          rw [if_pos h1, hdec]
        refine ⟨?_, ?_, ?_⟩ <;> simp [hps, h1, hdec]
    | some raw =>
        by_cases hb : raw.length < 24 ∨ raw.length > 64
        · have hps : signature.ParseSecret s =
              .error "secret size must be between 24 and 64 bytes" := by
            unfold signature.ParseSecret
            rw [if_pos h1, hdec]
            simp [hb]
          refine ⟨?_, ?_, ?_⟩ <;> simp [hps, h1, hdec] <;> omega
        · have hps : signature.ParseSecret s = .ok ⟨raw, s⟩ := by
            unfold signature.ParseSecret
            rw [if_pos h1, hdec]
            simp [hb]
          refine ⟨?_, ?_, ?_⟩
          · simp only [hps, h1, hdec, true_and]
            constructor
            · intro _
              exact ⟨raw, rfl, by omega, by omega⟩
            · intro _
              exact ⟨⟨raw, s⟩, rfl⟩
          · intro sec hsec
            rw [hps] at hsec
            cases hsec
            refine ⟨rfl, ?_, ?_, rfl⟩
            · show 24 ≤ raw.length
              omega
            · show raw.length ≤ 64
              omega
          · simp [hps, h1, hdec]
            omega
  · have hps : signature.ParseSecret s = .error "secret must start with whsec_" := by
      unfold signature.ParseSecret
      rw [if_neg h1]
    refine ⟨?_, ?_, ?_⟩ <;> simp [hps, h1]

/-- C9 witness: a well-formed secret (24 zero bytes) parses; without the
marker, or with a 3-byte payload, parsing fails. -/
theorem c9_witness :
    (∃ sec, signature.ParseSecret
      ('w' :: 'h' :: 's' :: 'e' :: 'c' :: '_' ::
        base64.encode (List.replicate 24 0)) = .ok sec) ∧
    (∃ e, signature.ParseSecret
      ('w' :: 'h' :: 's' :: 'e' :: 'c' :: '_' :: base64.encode [1, 2, 3]) = .error e) ∧
    (∃ e, signature.ParseSecret ['o', 'o', 'p', 's'] = .error e) := by
  refine ⟨?_, ?_, ?_⟩
  · exact (c9_parse_secret_characterization _).1.mpr
      ⟨by decide, List.replicate 24 0, by decide, by decide, by decide⟩
  · exact (c9_parse_secret_characterization _).2.2.mpr (by
      intro ⟨_, raw, hraw, h24, h64⟩
      have : raw = [1, 2, 3] := by
        have hd : base64.decode (base64.encode [1, 2, 3]) = some [1, 2, 3] := by decide
        simp only [List.drop_succ_cons, List.drop_zero] at hraw
        rw [hd] at hraw
        exact (Option.some.injEq _ _ ▸ hraw.symm)
      subst this
      simp at h24)
  · exact (c9_parse_secret_characterization _).2.2.mpr (by
      intro ⟨hmark, _⟩
      exact absurd hmark (by decide))

/-! ### Claims C3 and C4: the signer -/

/-- C4: `Sign` errors exactly when the message id contains a dot (byte
46); otherwise it produces version `v1` and the base64 of the MAC over
`msgID ++ "." ++ decimal unix seconds ++ "." ++ payload`, rendered
`v1,<base64>`. -/
theorem c4_sign_characterization (mac : List Nat → List Nat → List Nat)
    (secret : signature.Secret) (msgID : List Nat) (ts : Int) (payload : List Nat) :
    ((∃ e, signature.Sign mac secret msgID ts payload = .error e) ↔ 46 ∈ msgID) ∧
    (46 ∉ msgID →
      signature.Sign mac secret msgID ts payload =
        .ok { version := ['v', '1'],
              value := base64.encode (mac secret.raw
                (msgID ++ 46 :: signature.intDecBytes ts ++ 46 :: payload)) } ∧
      (signature.Sign mac secret msgID ts payload).map signature.Signature.render =
        .ok ('v' :: '1' :: ',' :: base64.encode (mac secret.raw
          (msgID ++ 46 :: signature.intDecBytes ts ++ 46 :: payload)))) := by
  constructor
  · constructor
    · rintro ⟨e, he⟩
      by_contra hno
      unfold signature.Sign at he
      rw [if_neg hno] at he
      cases he
    · intro h
      refine ⟨"message ID must not contain a dot", ?_⟩
      unfold signature.Sign
      rw [if_pos h]
  · intro h
    have hs : signature.Sign mac secret msgID ts payload =
        .ok { version := ['v', '1'],
              value := base64.encode (mac secret.raw
                (msgID ++ 46 :: signature.intDecBytes ts ++ 46 :: payload)) } := by
      unfold signature.Sign
      rw [if_neg h]
      rfl
    exact ⟨hs, by rw [hs]; rfl⟩

/-- A stand-in MAC for witnesses: a constant 3-byte digest. -/
def macConst : List Nat → List Nat → List Nat := fun _ _ => [1, 2, 3]

/-- A 24-zero-byte secret for witnesses. -/
def secret24 : signature.Secret := ⟨List.replicate 24 0, []⟩

/-- C4 witness: signing message id `[97]` at time 5 with payload `[98]`
yields exactly the characterised signature, and a dotted id errors. -/
theorem c4_witness :
    signature.Sign macConst secret24 [97] 5 [98] =
      .ok { version := ['v', '1'],
            value := base64.encode (macConst secret24.raw
              ([97] ++ 46 :: signature.intDecBytes 5 ++ 46 :: [98])) } ∧
    (∃ e, signature.Sign macConst secret24 [46] 5 [98] = .error e) := by
  constructor
  · exact ((c4_sign_characterization macConst secret24 [97] 5 [98]).2 (by decide)).1
  · exact (c4_sign_characterization macConst secret24 [46] 5 [98]).1.mpr (by decide)

/-- C3: for any MAC with byte-valued digests, a 24–64-byte secret, a
dot-free message id, any timestamp and payload, `Verify` accepts what
`Sign` produced. -/
theorem c3_sign_verify_roundtrip (mac : List Nat → List Nat → List Nat)
    (secret : signature.Secret) (msgID : List Nat) (ts : Int) (payload : List Nat)
    (_hsec : 24 ≤ secret.raw.length ∧ secret.raw.length ≤ 64)
    (hdot : 46 ∉ msgID)
    (hmac : ∀ k m b, b ∈ mac k m → b < 256) :
    ∀ sig, signature.Sign mac secret msgID ts payload = .ok sig →
      signature.Verify mac secret msgID ts payload sig = .ok true := by
  intro sig hsig
  have hs : signature.Sign mac secret msgID ts payload =
      .ok ⟨['v', '1'],
        base64.encode (mac secret.raw (signature.signedContent msgID ts payload))⟩ := by
    unfold signature.Sign
    rw [if_neg hdot]
  rw [hs] at hsig
  cases hsig
  unfold signature.Verify
  rw [if_neg (by simp)]
  rw [hs]
  have hdec := base64.decode_encode
    (mac secret.raw (signature.signedContent msgID ts payload))
    (fun b hb => hmac _ _ b hb)
  simp [hdec, signature.constantTimeCompare]

/-- C3 witness: the round trip at a concrete secret, id, time and
payload. -/
theorem c3_witness :
    signature.Verify macConst secret24 [97] 0 [98]
      ⟨['v', '1'], base64.encode [1, 2, 3]⟩ = .ok true := by
  have hsig : signature.Sign macConst secret24 [97] 0 [98] =
      .ok ⟨['v', '1'], base64.encode [1, 2, 3]⟩ := by decide
  exact c3_sign_verify_roundtrip macConst secret24 [97] 0 [98] (by decide) (by decide)
    (fun k m b hb => by
      simp only [macConst, List.mem_cons, List.not_mem_nil, or_false] at hb
      rcases hb with rfl | rfl | rfl <;> omega) _ hsig

/-! ### Claim C5: event-type matching -/

/-- "T begins with Q followed by a dot", in the index-and-take form the
code checks, is the same as a decomposition `T = Q ++ '.' :: rest`. -/
theorem conds_iff (t q : List Char) :
    (t.length > q.length ∧ t.take q.length = q ∧ t.getD q.length ' ' = '.') ↔
      ∃ rest, t = q ++ '.' :: rest := by
  induction q generalizing t with
  | nil =>
      cases t with
      | nil => simp
      | cons c t2 =>
          simp only [List.length_nil, List.take_zero, List.getD_cons_zero,
            List.nil_append, List.length_cons]
          constructor
          · rintro ⟨-, -, rfl⟩
            exact ⟨t2, rfl⟩
          · rintro ⟨rest, h⟩
            cases h
            exact ⟨by omega, trivial, rfl⟩
  | cons a q2 ih =>
      cases t with
      | nil => simp
      | cons c t2 =>
          simp only [List.length_cons, List.take_succ_cons, List.getD_cons_succ,
            List.cons_append, List.cons.injEq]
          constructor
          · rintro ⟨h1, ⟨rfl, ht⟩, h5⟩
            obtain ⟨rest, hrest⟩ := (ih t2).mp ⟨by omega, ht, h5⟩
            exact ⟨rest, rfl, hrest⟩
          · rintro ⟨rest, rfl, hrest⟩
            obtain ⟨h1, h4, h5⟩ := (ih t2).mpr ⟨rest, hrest⟩
            exact ⟨by omega, ⟨rfl, h4⟩, h5⟩

/-- A pattern is a code-accepted wildcard (more than two bytes, ending
in `.*`) exactly when it splits as a nonempty stem plus `.*`. -/
theorem wildcard_iff (p : List Char) :
    (p.length > 2 ∧ p.drop (p.length - 2) = ['.', '*']) ↔
      ∃ q, q ≠ [] ∧ p = q ++ ['.', '*'] := by
  constructor
  · rintro ⟨h1, h2⟩
    refine ⟨p.take (p.length - 2), ?_, ?_⟩
    · intro hnil
      have := congrArg List.length hnil
      simp [List.length_take] at this
      omega
    · conv_lhs => rw [← List.take_append_drop (p.length - 2) p]
      rw [h2]
  · rintro ⟨q, hq, rfl⟩
    have hql : q.length ≠ 0 := fun h => hq (List.length_eq_zero.mp h)
    constructor
    · simp only [List.length_append, List.length_cons, List.length_nil]
      omega
    · have hlen : (q ++ ['.', '*']).length - 2 = q.length := by
        simp only [List.length_append, List.length_cons, List.length_nil]
        omega
      rw [hlen, List.drop_left]

/-- The take used in the wildcard branch recovers the stem. -/
theorem take_stem (q : List Char) :
    (q ++ ['.', '*']).take ((q ++ ['.', '*']).length - 2) = q := by
  have hlen : (q ++ ['.', '*']).length - 2 = q.length := by
    simp only [List.length_append, List.length_cons, List.length_nil]
    omega
  rw [hlen, List.take_left]

/-- The per-pattern matcher, characterised. -/
theorem matchOne_iff (t p : List Char) :
    payload.matchOne t p = true ↔
      (p = t ∨ ∃ q, q ≠ [] ∧ p = q ++ ['.', '*'] ∧ ∃ rest, t = q ++ '.' :: rest) := by
  unfold payload.matchOne
  simp only [Bool.or_eq_true, Bool.and_eq_true, beq_iff_eq, decide_eq_true_eq]
  constructor
  · rintro (h | ⟨⟨h1, h2⟩, ⟨h3, h4⟩, h5⟩)
    · exact Or.inl h.symm
    · right
      obtain ⟨q, hq, rfl⟩ := (wildcard_iff p).mp ⟨h1, h2⟩
      rw [take_stem q] at h4
      have hlen : (q ++ ['.', '*']).length - 2 = q.length := by
        simp only [List.length_append, List.length_cons, List.length_nil]
        omega
      rw [hlen] at h3 h4 h5
      exact ⟨q, hq, rfl, (conds_iff t q).mp ⟨h3, h4, h5⟩⟩
  · rintro (h | ⟨q, hq, rfl, rest, hrest⟩)
    · exact Or.inl h.symm
    · right
      obtain ⟨h1, h2⟩ := (wildcard_iff (q ++ ['.', '*'])).mpr ⟨q, hq, rfl⟩
      obtain ⟨h3, h4, h5⟩ := (conds_iff t q).mpr ⟨rest, hrest⟩
      have hlen : (q ++ ['.', '*']).length - 2 = q.length := by
        simp only [List.length_append, List.length_cons, List.length_nil]
        omega
      refine ⟨⟨h1, h2⟩, ⟨?_, ?_⟩, ?_⟩
      · rw [hlen]
        exact h3
      · rw [hlen, List.take_left]
        exact h4
      · rw [hlen]
        exact h5

/-- The matching relation exactly as the spec sentence states it, with
no restriction on the wildcard stem. -/
def specMatches (t : List Char) (pats : List (List Char)) : Prop :=
  pats = [] ∨ ∃ p ∈ pats, p = t ∨
    ∃ q, p = q ++ ['.', '*'] ∧ ∃ rest, t = q ++ '.' :: rest

/-- The matching relation as the code implements it: the wildcard stem
must be nonempty (pattern longer than two bytes). -/
def specMatchesAmended (t : List Char) (pats : List (List Char)) : Prop :=
  pats = [] ∨ ∃ p ∈ pats, p = t ∨
    ∃ q, q ≠ [] ∧ p = q ++ ['.', '*'] ∧ ∃ rest, t = q ++ '.' :: rest

/-- C5 counterexample: for the bare pattern `".*"` (empty stem `Q`), the
spec relation accepts the type `".a"`, but `MatchesEventType` rejects it
(the code requires the pattern to be longer than two bytes). -/
theorem c5_counterexample :
    payload.MatchesEventType ['.', 'a'] [['.', '*']] = false ∧
    specMatches ['.', 'a'] [['.', '*']] := by
  constructor
  · decide
  · exact Or.inr ⟨['.', '*'], by simp, Or.inr ⟨[], rfl, ['a'], rfl⟩⟩

/-- C5 (amended): `MatchesEventType` returns true iff the list is empty,
or some pattern equals the type, or some pattern is `Q.*` with nonempty
`Q` and the type begins with `Q.`; and the spec's concrete wildcard
examples behave as stated. -/
theorem c5_matches_event_type_iff :
    (∀ t pats, payload.MatchesEventType t pats = true ↔ specMatchesAmended t pats) ∧
    payload.MatchesEventType ['x', '.', 'y'] [['x', '.', '*']] = true ∧
    payload.MatchesEventType ['x', '.', 'y', '.', 'z'] [['x', '.', '*']] = true ∧
    payload.MatchesEventType ['x'] [['x', '.', '*']] = false ∧
    payload.MatchesEventType ['x', 'y'] [['x', '.', '*']] = false ∧
    payload.MatchesEventType ['y', '.', 'x'] [['x', '.', '*']] = false := by
  refine ⟨?_, by decide, by decide, by decide, by decide, by decide⟩
  intro t pats
  unfold payload.MatchesEventType
  by_cases hp : pats.isEmpty
  · simp [hp, specMatchesAmended, List.isEmpty_iff.mp hp]
  · rw [if_neg hp]
    have hne : pats ≠ [] := fun h => hp (by simp [h])
    rw [List.any_eq_true]
    unfold specMatchesAmended
    constructor
    · rintro ⟨p, hmem, hone⟩
      exact Or.inr ⟨p, hmem, (matchOne_iff t p).mp hone⟩
    · rintro (h | ⟨p, hmem, hcase⟩)
      · exact absurd h hne
      · exact ⟨p, hmem, (matchOne_iff t p).mpr hcase⟩

/-- C5 witness: the amended relation applied at a concrete wildcard
match. -/
theorem c5_witness :
    payload.MatchesEventType ['u', '.', 'a'] [['u', '.', '*']] = true := by
  exact (c5_matches_event_type_iff.1 ['u', '.', 'a'] [['u', '.', '*']]).mpr
    (Or.inr ⟨['u', '.', '*'], by simp, Or.inr ⟨['u'], by simp, rfl, ['a'], rfl⟩⟩)

/-! ### Claim C6: idempotent acknowledge -/

/-- `Acknowledge` with no `msgid` key succeeds and changes nothing. -/
theorem ack_noop_of_absent (s : redisrepo.RedisState) (routeID : String)
    (mode : webhook.DeliveryMode) (eventID : String)
    (h : alookup s.strs (redisrepo.msgIDKey eventID) = none) :
    redisrepo.Acknowledge s routeID mode eventID = (s, .ok ()) := by
  unfold redisrepo.Acknowledge
  rw [h]

/-- `Acknowledge` always removes the `msgid` key. -/
theorem ack_deletes_key (s : redisrepo.RedisState) (routeID : String)
    (mode : webhook.DeliveryMode) (eventID : String) :
    alookup (redisrepo.Acknowledge s routeID mode eventID).1.strs
      (redisrepo.msgIDKey eventID) = none := by
  unfold redisrepo.Acknowledge
  rcases h : alookup s.strs (redisrepo.msgIDKey eventID) with _ | msgID
  · exact h
  · exact alookup_adel_self _ _

/-- C6: when the `msgid` key is absent (as after a first `Acknowledge`
deleted it), `Acknowledge` returns success and leaves the state
untouched; hence acknowledging twice equals acknowledging once. -/
theorem c6_acknowledge_idempotent (s : redisrepo.RedisState) (routeID : String)
    (mode : webhook.DeliveryMode) (eventID : String) :
    (alookup s.strs (redisrepo.msgIDKey eventID) = none →
      redisrepo.Acknowledge s routeID mode eventID = (s, .ok ())) ∧
    redisrepo.Acknowledge (redisrepo.Acknowledge s routeID mode eventID).1
      routeID mode eventID =
      ((redisrepo.Acknowledge s routeID mode eventID).1, .ok ()) := by
  refine ⟨fun h => ack_noop_of_absent s routeID mode eventID h, ?_⟩
  exact ack_noop_of_absent _ routeID mode eventID
    (ack_deletes_key s routeID mode eventID)

/-- A state holding one consumed, un-acknowledged event `e1`. -/
def consumedState : redisrepo.RedisState :=
  { hashes := [], strs := [(redisrepo.msgIDKey "e1", "m0")],
    streams := [(redisrepo.streamKey "r" webhook.FIFO, [⟨"m0", some "e1"⟩])],
    groups := [(redisrepo.groupKey "r" webhook.FIFO, ⟨1, ["m0"]⟩)],
    ttls := [], nextID := 1 }

/-- C6 witness: the second acknowledge of `e1` is exactly a no-op on the
state the first one produced. -/
theorem c6_witness :
    redisrepo.Acknowledge
      (redisrepo.Acknowledge consumedState "r" webhook.FIFO "e1").1
      "r" webhook.FIFO "e1" =
      ((redisrepo.Acknowledge consumedState "r" webhook.FIFO "e1").1, .ok ()) ∧
    redisrepo.Acknowledge
      { consumedState with strs := [] } "r" webhook.FIFO "e1" =
      ({ consumedState with strs := [] }, .ok ()) := by
  exact ⟨(c6_acknowledge_idempotent consumedState "r" webhook.FIFO "e1").2,
    (c6_acknowledge_idempotent { consumedState with strs := [] } "r" webhook.FIFO "e1").1
      (by decide)⟩

/-! ### Claim C7: terminal states and `UpdateStatus` -/

/-- A stored event whose status is the terminal `delivered`. -/
def deliveredHash : redisrepo.EventHash :=
  { id := "e1", routeID := "r", payload := [], headers := [], status := "delivered",
    retryCount := 0, maxRetries := 3, deliveryMode := "fifo", createdAt := 0,
    updatedAt := 0 }

/-- A repository state holding only the delivered event `e1`. -/
def deliveredState : redisrepo.RedisState :=
  { hashes := [(redisrepo.hashKey "e1", deliveredHash)], strs := [], streams := [],
    groups := [], ttls := [], nextID := 0 }

/-- C7 counterexample: event `e1` is stored as Delivered (terminal), yet
`UpdateStatus` to Retrying moves it out of the terminal state. -/
theorem c7_counterexample :
    (redisrepo.Get deliveredState "e1").toOption.map webhook.Webhook.status =
      some webhook.Delivered ∧
    (redisrepo.Get (redisrepo.UpdateStatus deliveredState 1 "e1" webhook.Retrying)
        "e1").toOption.map webhook.Webhook.status = some webhook.Retrying := by
  decide

/-- `XACK` never touches the hashes. -/
theorem xack_hashes (s : redisrepo.RedisState) (routeID : String)
    (mode : webhook.DeliveryMode) (msgID : String) :
    (redisrepo.xack s routeID mode msgID).hashes = s.hashes := by
  unfold redisrepo.xack
  rcases hg : alookup s.groups (redisrepo.groupKey routeID mode) with _ | g <;> rfl

/-- `Acknowledge` never touches the hashes. -/
theorem ack_hashes (s : redisrepo.RedisState) (routeID : String)
    (mode : webhook.DeliveryMode) (eventID : String) :
    (redisrepo.Acknowledge s routeID mode eventID).1.hashes = s.hashes := by
  unfold redisrepo.Acknowledge
  rcases h : alookup s.strs (redisrepo.msgIDKey eventID) with _ | msgID
  · rfl
  · exact xack_hashes s routeID mode msgID

/-- `ensureGroup` never touches the hashes. -/
theorem ensureGroup_hashes (s : redisrepo.RedisState) (routeID : String)
    (mode : webhook.DeliveryMode) :
    (redisrepo.ensureGroup s routeID mode).hashes = s.hashes := by
  unfold redisrepo.ensureGroup
  rcases h : alookup s.groups (redisrepo.groupKey routeID mode) with _ | g <;> rfl

/-- The consume loop body never touches the hashes. -/
theorem handleMsg_hashes (s2 : redisrepo.RedisState) (msg : redisrepo.StreamMsg) :
    (redisrepo.handleMsg s2 msg).1.hashes = s2.hashes := by
  unfold redisrepo.handleMsg
  rcases he : msg.eventID with _ | eid
  · rfl
  · rcases hg : redisrepo.Get s2 eid with e | wh <;> simp [hg]

/-- `Consume` never touches the hashes. -/
theorem consume_hashes (s : redisrepo.RedisState) (routeID : String)
    (mode : webhook.DeliveryMode) :
    (redisrepo.Consume s routeID mode).1.hashes = s.hashes := by
  unfold redisrepo.Consume redisrepo.consumeFrom
  rcases h : (redisrepo.streamOf (redisrepo.ensureGroup s routeID mode) routeID
      mode).drop (redisrepo.claimedGroup (redisrepo.ensureGroup s routeID mode)
      routeID mode).readPos with _ | ⟨msg, rest⟩
  · exact ensureGroup_hashes s routeID mode
  · rw [handleMsg_hashes]
    exact ensureGroup_hashes s routeID mode

/-- C7 (amended): the repository does not enforce terminal-state
monotonicity. `UpdateStatus` writes the given status unconditionally,
whatever the stored status was; the other consumer-side operations
(`Acknowledge`, `Consume`, `IncrementRetry`, `SetTTL`,
`DeleteMessageID`) preserve every stored event's status field. -/
theorem c7_update_status_blind (s : redisrepo.RedisState) (now : Int)
    (id id2 routeID : String) (mode : webhook.DeliveryMode) (st : webhook.Status)
    (h : redisrepo.EventHash)
    (hh : alookup s.hashes (redisrepo.hashKey id2) = some h) :
    ((alookup (redisrepo.UpdateStatus s now id st).hashes
        (redisrepo.hashKey id)).map redisrepo.EventHash.status =
      some (webhook.Status.toStr st)) ∧
    alookup (redisrepo.Acknowledge s routeID mode id).1.hashes
      (redisrepo.hashKey id2) = some h ∧
    alookup (redisrepo.Consume s routeID mode).1.hashes
      (redisrepo.hashKey id2) = some h ∧
    ((alookup (redisrepo.IncrementRetry s now id).hashes
        (redisrepo.hashKey id2)).map redisrepo.EventHash.status = some h.status) ∧
    alookup (redisrepo.SetTTL s id now).hashes (redisrepo.hashKey id2) = some h ∧
    alookup (redisrepo.DeleteMessageID s id).hashes (redisrepo.hashKey id2) = some h := by
  refine ⟨?_, ?_, ?_, ?_, hh, hh⟩
  · unfold redisrepo.UpdateStatus
    rw [alookup_aset_self]
    rfl
  · rw [ack_hashes]
    exact hh
  · rw [consume_hashes]
    exact hh
  · unfold redisrepo.IncrementRetry
    by_cases hk : redisrepo.hashKey id = redisrepo.hashKey id2
    · have hh2 : alookup s.hashes (redisrepo.hashKey id) = some h := by
        rw [hk]
        exact hh
      rw [← hk, alookup_aset_self]
      simp [hh2]
    · rw [alookup_aset_ne _ _ _ _ hk, hh]
      rfl

/-- C7 witness: at the concrete delivered event, `UpdateStatus` writes
`pending` over the terminal status, and `IncrementRetry` leaves the
status alone. -/
theorem c7_witness :
    (alookup (redisrepo.UpdateStatus deliveredState 1 "e1" webhook.Pending).hashes
        (redisrepo.hashKey "e1")).map redisrepo.EventHash.status = some "pending" ∧
    (alookup (redisrepo.IncrementRetry deliveredState 1 "e1").hashes
        (redisrepo.hashKey "e1")).map redisrepo.EventHash.status = some "delivered" := by
  have h := c7_update_status_blind deliveredState 1 "e1" "e1" "r" webhook.FIFO
    webhook.Pending deliveredHash (by decide)
  exact ⟨h.1, h.2.2.2.1⟩

/-! ### Claim C2: consume with a missing event hash -/

/-- A state whose stream has an entry `m0` for event `e1`, with no
`webhook:e1` hash stored. -/
def orphanState : redisrepo.RedisState :=
  { hashes := [], strs := [],
    streams := [(redisrepo.streamKey "r" webhook.FIFO, [⟨"m0", some "e1"⟩])],
    groups := [(redisrepo.groupKey "r" webhook.FIFO, ⟨0, []⟩)],
    ttls := [], nextID := 1 }

/-- C2 counterexample: consuming the orphan entry skips it (no webhook
returned) but does NOT acknowledge it — the entry stays in the group's
pending list instead of being removed from it. -/
theorem c2_counterexample :
    (redisrepo.Consume orphanState "r" webhook.FIFO).2 = [] ∧
    alookup (redisrepo.Consume orphanState "r" webhook.FIFO).1.groups
      (redisrepo.groupKey "r" webhook.FIFO) = some ⟨1, ["m0"]⟩ := by
  decide

/-- C2 (amended): for a consumed entry whose event hash is absent,
`Consume` skips it without acknowledging: it returns no webhook, writes
no `msgid` key, and only advances the group's read position while adding
the entry to the pending list — so the entry is not redelivered by later
`>` reads, but it is never acknowledged either. -/
theorem c2_consume_skips_missing_hash (s : redisrepo.RedisState) (routeID : String)
    (mode : webhook.DeliveryMode) (g : redisrepo.GroupState)
    (msg : redisrepo.StreamMsg) (rest : List redisrepo.StreamMsg) (eid : String)
    (hg : alookup s.groups (redisrepo.groupKey routeID mode) = some g)
    (hs : ((alookup s.streams (redisrepo.streamKey routeID mode)).getD []).drop
      g.readPos = msg :: rest)
    (he : msg.eventID = some eid)
    (hh : alookup s.hashes (redisrepo.hashKey eid) = none) :
    redisrepo.Consume s routeID mode =
      ({ s with groups := (aset s.groups (redisrepo.groupKey routeID mode)
          { readPos := g.readPos + 1, pel := g.pel ++ [msg.msgID] }) }, []) := by
  have hens : redisrepo.ensureGroup s routeID mode = s := by
    unfold redisrepo.ensureGroup
    rw [hg]
  have hcg : redisrepo.claimedGroup s routeID mode = g := by
    unfold redisrepo.claimedGroup
    rw [hg]
    rfl
  have hcm : redisrepo.claimMsg s routeID mode msg =
      { s with groups := (aset s.groups (redisrepo.groupKey routeID mode)
          { readPos := g.readPos + 1, pel := g.pel ++ [msg.msgID] }) } := by
    unfold redisrepo.claimMsg
    rw [hcg]
  have hdrop : (redisrepo.streamOf s routeID mode).drop
      (redisrepo.claimedGroup s routeID mode).readPos = msg :: rest := by
    rw [hcg]
    exact hs
  unfold redisrepo.Consume
  rw [hens]
  unfold redisrepo.consumeFrom
  rw [hdrop]
  show redisrepo.handleMsg (redisrepo.claimMsg s routeID mode msg) msg =
    ({ s with groups := (aset s.groups (redisrepo.groupKey routeID mode)
        { readPos := g.readPos + 1, pel := g.pel ++ [msg.msgID] }) }, [])
  rw [hcm]
  unfold redisrepo.handleMsg
  rw [he]
  have hget : redisrepo.Get
      { s with groups := (aset s.groups (redisrepo.groupKey routeID mode)
          { readPos := g.readPos + 1, pel := g.pel ++ [msg.msgID] }) } eid = .error "webhook not found" := by
    unfold redisrepo.Get
    rw [show ({ s with groups := (aset s.groups (redisrepo.groupKey routeID mode)
        { readPos := g.readPos + 1, pel := g.pel ++ [msg.msgID] }) } : redisrepo.RedisState).hashes =
      s.hashes from rfl, hh]
  simp only [hget]

/-- C2 witness: the amended behaviour at the concrete orphan state. -/
theorem c2_witness :
    redisrepo.Consume orphanState "r" webhook.FIFO =
      ({ orphanState with
          groups := (aset orphanState.groups (redisrepo.groupKey "r" webhook.FIFO)
            { readPos := 1, pel := ["m0"] }) }, []) := by
  exact c2_consume_skips_missing_hash orphanState "r" webhook.FIFO ⟨0, []⟩
    ⟨"m0", some "e1"⟩ [] "e1" (by decide) (by decide) (by decide) (by decide)

/-! ### Claim C1: the loader and the optional signing and filter keys -/

/-- A routes.yaml entry setting both `signing_secret` and
`event_types`. -/
def signedEntry : routes.RouteEntry :=
  { routeID := "r1", targetURL := "https://t.example", mode := "fifo",
    maxRetries := 3, retryBackoff := "1000", parallelism := 1,
    expectedStatus := 0, deliveredTTLHours := none, failedTTLHours := none,
    signingSecret := some ['x'], eventTypes := some [['u', '.', '*']] }

/-- C1 counterexample: the entry sets `signing_secret` (to a string that
is not even a valid secret) and `event_types`, yet `Load` accepts it and
produces a route whose `SigningSecret` and `EventTypes` are the Go zero
values — not the configured ones. -/
theorem c1_counterexample :
    routes.loadEntry signedEntry =
      .ok { routeID := "r1", targetURL := "https://t.example", mode := webhook.FIFO,
            maxRetries := 3, retryBackoff := "1000", parallelism := 1,
            expectedStatus := 202, deliveredTTLHours := none, failedTTLHours := none,
            signingSecret := [], eventTypes := [] } ∧
    signedEntry.signingSecret = some ['x'] ∧
    signedEntry.eventTypes = some [['u', '.', '*']] ∧
    (['x'] : List Char) ≠ [] ∧ ([['u', '.', '*']] : List (List Char)) ≠ [] := by
  decide

/-- Whatever `loadEntry` accepts has empty signing and filter fields. -/
theorem loadEntry_zero_fields (e : routes.RouteEntry) (r : routes.Route)
    (h : routes.loadEntry e = .ok r) :
    r.signingSecret = [] ∧ r.eventTypes = [] := by
  unfold routes.loadEntry at h
  rcases hv : (routes.convertRoute (routes.decodeEntry e)).Validate with err | u
  · simp [hv] at h
  · simp [hv] at h
    subst h
    exact ⟨rfl, rfl⟩

/-- C1 (amended): `Load` ignores the `signing_secret` and `event_types`
keys entirely (they have no field in the yaml-tagged `RouteConfig`);
every route it registers has an empty `SigningSecret` and no
`EventTypes`, whatever the yaml said. -/
theorem c1_load_drops_signing_and_filter (entries : List routes.RouteEntry)
    (m : List (String × routes.Route)) (h : routes.Load entries = .ok m)
    (k : String) (r : routes.Route) (hk : alookup m k = some r) :
    r.signingSecret = [] ∧ r.eventTypes = [] := by
  induction entries generalizing m with
  | nil =>
      unfold routes.Load at h
      cases h
      simp [alookup] at hk
  | cons e rest ih =>
      unfold routes.Load at h
      rcases hle : routes.loadEntry e with err | route
      · rw [hle] at h
        cases h
      · rw [hle] at h
        rcases hlr : routes.Load rest with err | m2
        · rw [hlr] at h
          cases h
        · rw [hlr] at h
          cases h
          by_cases hkk : route.routeID = k
          · unfold alookup at hk
            rw [if_pos hkk] at hk
            have hinj := Option.some.inj hk
            rw [← hinj]
            exact loadEntry_zero_fields e route hle
          · unfold alookup at hk
            rw [if_neg hkk] at hk
            exact ih m2 hlr hk

/-- The route that loading `signedEntry` registers. -/
def loadedSignedRoute : routes.Route :=
  { routeID := "r1", targetURL := "https://t.example", mode := webhook.FIFO,
    maxRetries := 3, retryBackoff := "1000", parallelism := 1,
    expectedStatus := 202, deliveredTTLHours := none, failedTTLHours := none,
    signingSecret := [], eventTypes := [] }

/-- C1 witness: the amended statement at the concrete one-entry file. -/
theorem c1_witness :
    routes.Load [signedEntry] = .ok [("r1", loadedSignedRoute)] ∧
    loadedSignedRoute.signingSecret = [] ∧ loadedSignedRoute.eventTypes = [] := by
  have h := c1_load_drops_signing_and_filter [signedEntry] [("r1", loadedSignedRoute)]
    (by decide) "r1" loadedSignedRoute (by decide)
  exact ⟨by decide, h.1, h.2⟩

/-! ### Claim C8: the intake handler -/

/-- A payload missing `type`, `timestamp` or `data` never validates. -/
theorem validate_missing_field (jsonValid : List Char → Bool)
    (p : payload.StandardPayload)
    (h : p.type = [] ∨ p.timestamp = 0 ∨ p.data = []) :
    ∃ e, payload.Validate jsonValid p = .error e := by
  unfold payload.Validate
  split_ifs with h1 h2 h3 h4 h5
  · exact ⟨_, rfl⟩
  · exact ⟨_, rfl⟩
  · exact ⟨_, rfl⟩
  · exact ⟨_, rfl⟩
  · exact ⟨_, rfl⟩
  · rcases h with h | h | h
    · exact absurd h h1
    · exact absurd h h3
    · exact absurd h h4

/-- A valid delivery mode validates to success. -/
theorem mode_validate_ok (d : webhook.DeliveryMode)
    (h : d = webhook.FIFO ∨ d = webhook.PubSub) :
    webhook.DeliveryMode.Validate d = .ok () := by
  rcases h with rfl | rfl <;>
    simp [webhook.DeliveryMode.Validate, webhook.FIFO, webhook.PubSub]

/-- C8: the intake handler's dispatch. With a nonempty route id: an
unknown route gives 404; a body failing envelope parsing or validation
(missing/malformed `type`, `timestamp` or `data` — an empty body fails
JSON unmarshalling) gives 400; a store failure gives 500; otherwise the
stored event is exactly `buildWebhook` — fresh id, `Pending`, zero
retries, mode and max retries snapshotted from the route — and the
response is 202 with the event and route ids. -/
theorem c8_post_webhook_dispatch
    (unmarshal : List Char → Except String payload.StandardPayload)
    (jsonValid : List Char → Bool) (store : webhook.Webhook → Except String String)
    (loader : List (String × routes.Route)) (routeID : String) (body : List Char)
    (headers : List (String × String)) (freshID : String) (now : Int)
    (hroute : routeID ≠ "") :
    (alookup loader routeID = none →
      handler.postWebhook unmarshal jsonValid store loader routeID body headers
        freshID now = .notFound "route not found") ∧
    (∀ route, alookup loader routeID = some route →
      ((∀ e, payload.Parse unmarshal jsonValid body = .error e →
        handler.postWebhook unmarshal jsonValid store loader routeID body headers
          freshID now = .badRequest "invalid payload format") ∧
      (∀ p, unmarshal body = .ok p →
        (p.type = [] ∨ p.timestamp = 0 ∨ p.data = []) →
        handler.postWebhook unmarshal jsonValid store loader routeID body headers
          freshID now = .badRequest "invalid payload format") ∧
      (route.mode = webhook.FIFO ∨ route.mode = webhook.PubSub →
        ∀ p, payload.Parse unmarshal jsonValid body = .ok p →
        ((∀ e2, store (handler.buildWebhook freshID routeID route.mode body headers
            route.maxRetries now) = .error e2 →
          handler.postWebhook unmarshal jsonValid store loader routeID body headers
            freshID now = .serverError "storing webhook") ∧
        (∀ idr, store (handler.buildWebhook freshID routeID route.mode body headers
            route.maxRetries now) = .ok idr →
          handler.postWebhook unmarshal jsonValid store loader routeID body headers
            freshID now = .accepted idr routeID))))) ∧
    (∀ route, alookup loader routeID = some route →
      (handler.buildWebhook freshID routeID route.mode body headers
        route.maxRetries now).id = freshID ∧
      (handler.buildWebhook freshID routeID route.mode body headers
        route.maxRetries now).status = webhook.Pending ∧
      (handler.buildWebhook freshID routeID route.mode body headers
        route.maxRetries now).retryCount = 0 ∧
      (handler.buildWebhook freshID routeID route.mode body headers
        route.maxRetries now).deliveryMode = route.mode ∧
      (handler.buildWebhook freshID routeID route.mode body headers
        route.maxRetries now).maxRetries = route.maxRetries ∧
      (handler.buildWebhook freshID routeID route.mode body headers
        route.maxRetries now).payload = body) ∧
    (handler.HandlerResult.notFound "route not found").code = 404 ∧
    (handler.HandlerResult.badRequest "invalid payload format").code = 400 ∧
    (handler.HandlerResult.serverError "storing webhook").code = 500 ∧
    (∀ idr, (handler.HandlerResult.accepted idr routeID).code = 202) := by
  refine ⟨?_, ?_, ?_, rfl, rfl, rfl, fun _ => rfl⟩
  · intro hnone
    unfold handler.postWebhook
    rw [if_neg hroute, hnone]
  · intro route hsome
    refine ⟨?_, ?_, ?_⟩
    · intro e he
      unfold handler.postWebhook
      rw [if_neg hroute, hsome, he]
    · intro p hp hmiss
      obtain ⟨e, he⟩ := validate_missing_field jsonValid p hmiss
      have hparse : payload.Parse unmarshal jsonValid body = .error e := by
        unfold payload.Parse
        simp only [hp, he]
      unfold handler.postWebhook
      rw [if_neg hroute, hsome, hparse]
    · intro hmode p hp
      have hrecv : ∀ r2, handler.Receive store freshID routeID route.mode body headers
          route.maxRetries now = r2 →
          handler.postWebhook unmarshal jsonValid store loader routeID body headers
            freshID now =
            (match r2 with
             | .error e => .serverError e
             | .ok eventID => .accepted eventID routeID) := by
        intro r2 hr2
        unfold handler.postWebhook
        rw [if_neg hroute]
        simp only [hsome, hp, hr2]
      constructor
      · intro e2 hstore
        have : handler.Receive store freshID routeID route.mode body headers
            route.maxRetries now = .error "storing webhook" := by
          unfold handler.Receive
          rw [mode_validate_ok route.mode hmode, hstore]
        exact hrecv _ this
      · intro idr hstore
        have : handler.Receive store freshID routeID route.mode body headers
            route.maxRetries now = .ok idr := by
          unfold handler.Receive
          rw [mode_validate_ok route.mode hmode, hstore]
        exact hrecv _ this
  · intro route hsome
    exact ⟨rfl, rfl, rfl, rfl, rfl, rfl⟩

/-- A fixed valid envelope for the C8 witness. -/
def okPayload : payload.StandardPayload :=
  { type := ['u'], timestamp := 1, data := ['1'] }

/-- The registered route for the C8 witness. -/
def witnessRoute : routes.Route :=
  { routeID := "r1", targetURL := "https://t.example", mode := webhook.FIFO,
    maxRetries := 3, retryBackoff := "1000", parallelism := 1,
    expectedStatus := 202, deliveredTTLHours := none, failedTTLHours := none,
    signingSecret := [], eventTypes := [] }

/-- A one-route registry for the C8 witness. -/
def witnessLoader : List (String × routes.Route) :=
  [("r1", witnessRoute)]

/-- C8 witness: at a concrete unmarshaller, store and registry, the
handler answers 404 for an unknown route and 202 for a stored event. -/
theorem c8_witness :
    handler.postWebhook (fun _ => .ok okPayload) (fun _ => true)
      (fun w => .ok w.id) witnessLoader "nope" ['1'] [] "w1" 0 =
      .notFound "route not found" ∧
    handler.postWebhook (fun _ => .ok okPayload) (fun _ => true)
      (fun w => .ok w.id) witnessLoader "r1" ['1'] [] "w1" 0 =
      .accepted "w1" "r1" := by
  constructor
  · exact (c8_post_webhook_dispatch (fun _ => .ok okPayload) (fun _ => true)
      (fun w => .ok w.id) witnessLoader "nope" ['1'] [] "w1" 0 (by decide)).1
      (by decide)
  · exact (((c8_post_webhook_dispatch (fun _ => .ok okPayload) (fun _ => true)
      (fun w => .ok w.id) witnessLoader "r1" ['1'] [] "w1" 0 (by decide)).2.1
      witnessRoute (by decide)).2.2
      (Or.inl rfl) okPayload (by decide)).2 "w1" rfl

end WebhookInbox
